import Mathlib

/-!
Shallow embedding of the statistics/charting library in `dataManipulation.py`
(repository Ryan-C-Marshall/Statistics), together with theorems settling the
frozen claims about its specification.

Python floats are modelled as rationals (the claims are about exact rank and
affine arithmetic, not rounding), Python runtime failures (ValueError,
ZeroDivisionError, IndexError, TypeError, math domain errors) as an explicit
error type, and pixel output as a list of abstract draw commands.
-/

/-- Kinds of Python runtime failure raised by the source.  Each constructor
corresponds to one family of raise sites / implicit failures:
* `valueErrorNoData` — ValueError "No data was entered." (MultivariableDiscreteData init);
* `valueErrorDimension` — ValueError "Multivariable Data must have at least two dimensions ..." ;
* `valueErrorLengthMismatch` — ValueError for mismatched dataset lengths
  (MultivariableDiscreteData init, linear_regression, sumProducts);
* `valueErrorNoValuesAbove` — ValueError "No values above threshold." (value_before_threshold);
* `zeroDivisionError` — Python division by zero;
* `indexError` — Python out-of-range list indexing;
* `typeError` — Python arithmetic on None (categorical axis used as numeric);
* `mathDomainError` — math.log10 of a non-positive number;
* `divergence` — marker for a while loop that never terminates (not a Python
  error: it marks the renders that would hang). -/
inductive PyErr where
  | valueErrorNoData
  | valueErrorDimension
  | valueErrorLengthMismatch
  | valueErrorNoValuesAbove
  | zeroDivisionError
  | indexError
  | typeError
  | mathDomainError
  | divergence
deriving DecidableEq, Repr

instance {ε α : Type _} [DecidableEq ε] [DecidableEq α] : DecidableEq (Except ε α) :=
  fun x y =>
    match x, y with
    | .ok a, .ok b =>
        if h : a = b then isTrue (congrArg Except.ok h)
        else isFalse (fun hh => h (Except.ok.inj hh))
    | .error e, .error f =>
        if h : e = f then isTrue (congrArg Except.error h)
        else isFalse (fun hh => h (Except.error.inj hh))
    | .ok _, .error _ => isFalse (fun hh => Except.noConfusion hh)
    | .error _, .ok _ => isFalse (fun hh => Except.noConfusion hh)

/-- Python float division: raises ZeroDivisionError on a zero denominator. -/
def pyDiv (a b : ℚ) : Except PyErr ℚ :=
  if b = 0 then .error .zeroDivisionError else .ok (a / b)

/-- Python list indexing `l[i]` for a possibly negative index: a negative
index counts from the end; anything still out of range raises IndexError. -/
def pyGet (l : List ℚ) (i : ℤ) : Except PyErr ℚ :=
  let j : ℤ := if i < 0 then i + l.length else i
  if 0 ≤ j then
    match l.get? j.toNat with
    | some v => .ok v
    | none => .error .indexError
  else .error .indexError

/-- Ascending sort, modelling the Python `list.sort()` calls.  The source
sorts rationals, for which any correct sort produces the same list. -/
def sortAsc (l : List ℚ) : List ℚ := l.insertionSort (· ≤ ·)

/-- Index of the first element strictly above `bound`, modelling the
`for i, value in enumerate(valuesCopy): if value > bound: ...` loop of
`value_before_threshold` (dataManipulation.py lines 814-816). -/
def firstIdxAbove (bound : ℚ) : List ℚ → Option ℕ
  | [] => none
  | v :: rest => if bound < v then some 0 else (firstIdxAbove bound rest).map (· + 1)

/-- `value_before_threshold(bound, values, belowThreshold)`
(dataManipulation.py lines 802-821): sort a copy of `values`; at the first
value strictly above `bound` return `valuesCopy[i - belowThreshold]`
(Python bool arithmetic: `True` is 1, `False` is 0; index `-1` wraps to the
last element); if no value is above `bound`, return the last element when
`belowThreshold`, else raise ValueError "No values above threshold.". -/
def value_before_threshold (bound : ℚ) (values : List ℚ) (belowThreshold : Bool) :
    Except PyErr ℚ :=
  let valuesCopy := sortAsc values
  match firstIdxAbove bound valuesCopy with
  | some i => pyGet valuesCopy ((i : ℤ) - (if belowThreshold then 1 else 0))
  | none =>
      if belowThreshold then pyGet valuesCopy (-1)
      else .error .valueErrorNoValuesAbove

/-- `median(data)` (dataManipulation.py lines 824-831).  For even `length`
the Python indices `int(length/2 - 0.5)` and `int(length/2 + 0.5)` are the
truncations of `length/2 - 1/2` and `length/2 + 1/2` toward zero, i.e.
`(length-1).div 2` and `(length+1).div 2` in truncating integer division (Int.tdiv). -/
def median (data : List ℚ) : Except PyErr ℚ :=
  let s := sortAsc data
  let length : ℤ := s.length
  if length % 2 = 0 then do
    let a ← pyGet s (Int.tdiv (length - 1) 2)
    let b ← pyGet s (Int.tdiv (length + 1) 2)
    .ok ((a + b) / 2)
  else
    pyGet s (length / 2)

/-- `DiscreteData.quarterOne` (dataManipulation.py lines 336-343).
The Python test `((n - 1) / 4) % 1 == 0` holds exactly when `n - 1` is
divisible by 4 (with the Python convention `(-0.25) % 1 = 0.75` for the
empty list), and `int((n - 1) / 4 + 0.5)` is then `(n - 1) / 4` exactly;
in the other branch `int((n - 1) / 4)` truncates toward zero (`Int.tdiv`). -/
def quarterOne (data : List ℚ) : Except PyErr ℚ :=
  let tempData := sortAsc data
  let n : ℤ := tempData.length
  if (n - 1) % 4 = 0 then
    pyGet tempData ((n - 1) / 4)
  else do
    let a ← pyGet tempData (Int.tdiv (n - 1) 4)
    let b ← pyGet tempData (Int.tdiv (n - 1) 4 + 1)
    .ok ((a + b) / 2)

/-- `DiscreteData.quarterThree` (dataManipulation.py lines 345-352), with the
same index conventions as `quarterOne` but scaled by 3. -/
def quarterThree (data : List ℚ) : Except PyErr ℚ :=
  let tempData := sortAsc data
  let n : ℤ := tempData.length
  if (n - 1) % 4 = 0 then
    pyGet tempData (3 * ((n - 1) / 4))
  else do
    let a ← pyGet tempData (3 * Int.tdiv (n - 1) 4)
    let b ← pyGet tempData (3 * Int.tdiv (n - 1) 4 + 1)
    .ok ((a + b) / 2)

/-- The outlier filter of `BoxplotGraph.drawBoxplot`
(dataManipulation.py lines 535-538): every data point strictly below
`lowerBound` or strictly above `upperBound`, in input order. -/
def outliers (data : List ℚ) (lowerBound upperBound : ℚ) : List ℚ :=
  data.filter (fun dataPoint =>
    decide (dataPoint < lowerBound) || decide (upperBound < dataPoint))

/-- `next_lowest_decimultiple(upperBound, multiples)`
(dataManipulation.py lines 787-799).  `math.floor(math.log10 x)` for a
positive rational is `Int.log 10 x`; `math.log10` raises a math domain
error on non-positive input.  The list is sorted in reverse and the first
member below the normalized bound is kept (default 1). -/
def next_lowest_decimultiple (upperBound : ℚ) (multiples : List ℚ) : Except PyErr ℚ :=
  if upperBound ≤ 0 then .error .mathDomainError
  else
    let powerOfTen : ℤ := Int.log 10 upperBound
    let ub := upperBound / (10 : ℚ) ^ powerOfTen
    let sorted := multiples.insertionSort (· ≥ ·)
    let decimultiple := (sorted.find? (fun number => decide (number ≤ ub))).getD 1
    .ok (decimultiple * (10 : ℚ) ^ powerOfTen)

/-- `sumProducts(dataOne, dataTwo)` (dataManipulation.py lines 847-855): the
index loop over `range(len(dataOne))` on equal-length lists is the sum of
pointwise products. -/
def sumProducts (dataOne dataTwo : List ℚ) : Except PyErr ℚ :=
  if dataOne.length ≠ dataTwo.length then .error .valueErrorLengthMismatch
  else .ok (List.zipWith (· * ·) dataOne dataTwo).sum

/-- `linear_regression(xData, yData)` (dataManipulation.py lines 834-844).
The two divisions share the denominator `n·Σx² − (Σx)²`; Python raises
ZeroDivisionError when it is zero. -/
def linear_regression (xData yData : List ℚ) : Except PyErr (ℚ × ℚ) :=
  if xData.length ≠ yData.length then .error .valueErrorLengthMismatch
  else do
    let sxy ← sumProducts xData yData
    let sxx ← sumProducts xData xData
    let n : ℚ := xData.length
    let slope ← pyDiv (n * sxy - xData.sum * yData.sum) (n * sxx - xData.sum ^ 2)
    let intercept ← pyDiv (yData.sum * sxx - xData.sum * sxy) (n * sxx - xData.sum ^ 2)
    .ok (slope, intercept)

/-- Python round-half-to-even of a rational to an integer. -/
def pyRound (x : ℚ) : ℤ :=
  if x - ⌊x⌋ < 1 / 2 then ⌊x⌋
  else if 1 / 2 < x - ⌊x⌋ then ⌊x⌋ + 1
  else if Even ⌊x⌋ then ⌊x⌋ else ⌊x⌋ + 1

/-- Python `round(x, k)`: round half to even at the k-th decimal place. -/
def pyRoundTo (x : ℚ) (k : ℤ) : ℚ :=
  (pyRound (x * (10 : ℚ) ^ k) : ℚ) / (10 : ℚ) ^ k

/-- `sig_figs(x, precision)` (dataManipulation.py lines 858-870). -/
def sig_figs (x : ℚ) (precision : ℤ) : ℚ :=
  if x = 0 then 0
  else pyRoundTo x (-(Int.log 10 |x|) + (precision - 1))

/-- RGB colour triple; the source passes colours through arithmetic
(`complementary`, halving), so components are rationals here. -/
abbrev Colour := ℚ × ℚ × ℚ

/-- `complementary(colour)` (dataManipulation.py lines 882-883). -/
def complementary (colour : Colour) : Colour :=
  (255 - colour.1, 255 - colour.2.1, 255 - colour.2.2)

/-- `valid_rgb_colour(colour)` (dataManipulation.py lines 873-879), for a
triple (the length-3 test is carried by the type). -/
def valid_rgb_colour (colour : Colour) : Bool :=
  decide (0 ≤ colour.1 ∧ colour.1 ≤ 255) && decide (0 ≤ colour.2.1 ∧ colour.2.1 ≤ 255)
    && decide (0 ≤ colour.2.2 ∧ colour.2.2 ≤ 255)

/-- `DiscreteData` (dataManipulation.py lines 326-334): a labelled list of
values with units.  `size` and the `median` snapshot are derived. -/
structure DiscreteData where
  data : List ℚ
  label : String
  units : String
deriving DecidableEq, Repr

instance : Inhabited DiscreteData := ⟨⟨[], "", ""⟩⟩

/-- `self.size = len(data)` of `DiscreteData.__init__`. -/
def DiscreteData.size (d : DiscreteData) : ℕ := d.data.length

/-- `DiscreteData.__init__` also computes `self.median = median(self.data)`,
which raises IndexError on an empty list; construction is therefore
fallible. -/
def mkDiscreteData (data : List ℚ) (label units : String) : Except PyErr DiscreteData :=
  (median data).map (fun _ => ⟨data, label, units⟩)

/-- `MultivariableDiscreteData` (dataManipulation.py lines 374-402). -/
structure MultivariableDiscreteData where
  title : String
  numDimensions : ℕ
  data : List DiscreteData
  numPoints : ℕ
deriving DecidableEq, Repr

/-- `MultivariableDiscreteData.__init__` (dataManipulation.py lines 376-402):
raises ValueError "No data was entered." for zero datasets, the
two-dimensions ValueError for exactly one dataset, the length-mismatch
ValueError when some dataset size differs from the first, and otherwise
records `numDimensions = len(data)` and `numPoints = data[0].size`. -/
def mkMultivariableDiscreteData (data : List DiscreteData) (title : String) :
    Except PyErr MultivariableDiscreteData :=
  match data with
  | [] => .error .valueErrorNoData
  | [_] => .error .valueErrorDimension
  | d0 :: rest =>
      if (d0 :: rest).all (fun discreteData => discreteData.size == d0.size) then
        .ok ⟨title, (d0 :: rest).length, d0 :: rest, d0.size⟩
      else .error .valueErrorLengthMismatch

/-- `MultivariableDiscreteData.getData(datasetNum)` (lines 421-422). -/
def MultivariableDiscreteData.getData (m : MultivariableDiscreteData) (datasetNum : ℕ) :
    List ℚ :=
  (m.data.getD datasetNum ⟨[], "", ""⟩).data

/-- `MultivariableDiscreteData.get_points_list` (lines 404-405) specialised
to the two-dimensional datasets a scatterplot draws: the j-th point pairs
the j-th values of the two aligned series. -/
def MultivariableDiscreteData.pointsList (m : MultivariableDiscreteData) : List (ℚ × ℚ) :=
  List.zip (m.getData 0) (m.getData 1)

/-- Python `min(list)`: ValueError on an empty sequence. -/
def pyMin (l : List ℚ) : Except PyErr ℚ :=
  match l with
  | [] => .error .valueErrorNoData
  | x :: xs => .ok (xs.foldl min x)

/-- Python `max(list)`: ValueError on an empty sequence. -/
def pyMax (l : List ℚ) : Except PyErr ℚ :=
  match l with
  | [] => .error .valueErrorNoData
  | x :: xs => .ok (xs.foldl max x)

/-- Configuration fields of `Graph.__init__` (dataManipulation.py lines
18-96) that the geometry and rendering read.  `width`/`height` are `None`
until resolved against the window. -/
structure GraphCfg where
  maxY : ℚ
  categoricalXAxis : Bool
  maxX : ℚ
  minY : ℚ
  minX : ℚ
  xCategoricalLabels : Option (List String)
  x : ℚ
  y : ℚ
  width : Option ℚ
  height : Option ℚ
  graphSize : ℚ
  borderWidth : ℚ
  bgColour : Colour
  primaryColour : Colour
  borderColour : Colour
  title : String
  showXAxisLabel : Bool
  showYAxisLabel : Bool
  xAxisLabel : String
  yAxisLabel : String
  axisMarkerDensity : ℚ
deriving DecidableEq, Repr

/-- The geometry fields `Graph.set_dimensions` computes (lines 114-137).
`xScale`/`originX` stay `none` for a categorical x axis, exactly as the
Python attributes stay `None`. -/
structure Dims where
  width : ℚ
  height : ℚ
  effectiveX : ℚ
  effectiveY : ℚ
  effectiveWidth : ℚ
  effectiveHeight : ℚ
  graphX : ℚ
  graphY : ℚ
  graphWidth : ℚ
  graphHeight : ℚ
  xScale : Option ℚ
  originX : Option ℚ
  yScale : ℚ
  originY : ℚ
deriving DecidableEq, Repr

/-- `Graph.set_dimensions(window)` (dataManipulation.py lines 114-137):
resolve width/height against the window, lay out the effective and graph
rectangles, and derive the numeric axis scales and origins.  The divisions
by `maxX - minX` and `maxY - minY` raise ZeroDivisionError on degenerate
ranges. -/
def set_dimensions (g : GraphCfg) (winW winH : ℚ) : Except PyErr Dims :=
  let width := g.width.getD winW
  let height := g.height.getD winH
  let effectiveX := g.x + g.borderWidth
  let effectiveY := g.y + g.borderWidth
  let effectiveWidth := width - 2 * g.borderWidth
  let effectiveHeight := height - 2 * g.borderWidth
  let graphWidth := g.graphSize * effectiveWidth
  let graphHeight := g.graphSize * effectiveHeight
  let graphX := effectiveX + (effectiveWidth - graphWidth) / 2
  let graphY := effectiveY + (effectiveHeight - graphHeight) / 2
  match (if g.categoricalXAxis then Except.ok (none, none) else
      (pyDiv graphWidth (g.maxX - g.minX)).map
        (fun s => (some s, some (graphX - s * g.minX)))) with
  | .error e => .error e
  | .ok (xScale, originX) =>
      match pyDiv graphHeight (g.maxY - g.minY) with
      | .error e => .error e
      | .ok yScale =>
          .ok ⟨width, height, effectiveX, effectiveY, effectiveWidth, effectiveHeight,
               graphX, graphY, graphWidth, graphHeight, xScale, originX, yScale,
               graphY + graphHeight + yScale * g.minY⟩

/-- The data-to-pixel map for the x axis, as used at the draw sites
(`self.originX + xPointVal * self.xScale`, line 712). -/
def pixelX (originX xScale value : ℚ) : ℚ := originX + xScale * value

/-- The data-to-pixel map for the y axis, as used at the draw sites
(`self.originY - yPointVal * self.yScale`, line 712): y is inverted. -/
def pixelY (originY yScale value : ℚ) : ℚ := originY - yScale * value

/-- Modelled from the spec: the pixel→data inverse of the x coordinate
mapping ("mapping a data value to pixels and back").  The source has no
inverse function; this is the inverse the spec asserts exists. -/
def dataFromPixelX (originX xScale px : ℚ) : ℚ := (px - originX) / xScale

/-- Modelled from the spec: the pixel→data inverse of the y coordinate
mapping.  The source has no inverse function; this is the inverse the spec
asserts exists. -/
def dataFromPixelY (originY yScale py : ℚ) : ℚ := (originY - py) / yScale

/-- Abstract draw commands issued to the pygame surface.  `textNum` carries
a numeric label (the source renders `str(sig_figs(...))`; string formatting
of floats is external). -/
inductive DrawCmd where
  | rect (colour : Colour) (x y w h : ℚ)
  | line (colour : Colour) (x1 y1 x2 y2 w : ℚ)
  | circle (colour : Colour) (cx cy r w : ℚ)
  | text (s : String) (cx cy : ℚ)
  | textNum (v : ℚ) (cx cy : ℚ)
deriving DecidableEq, Repr

/-- The values of `labelNum` visited by the Python loop
`while labelNum * spacing <= limit: ...; labelNum += 1`.  For positive
spacing these are `0, 1, ..., ⌊limit / spacing⌋`; a negative limit stops
the loop immediately; otherwise (spacing ≤ 0 ≤ limit) the Python loop
never terminates, marked by the `divergence` error. -/
def whileIters (spacing limit : ℚ) : Except PyErr (List ℕ) :=
  if limit < 0 then .ok []
  else if 0 < spacing then .ok (List.range (⌊limit / spacing⌋ + 1).toNat)
  else .error .divergence

/-- One iteration of the x-axis mark loop (dataManipulation.py lines
226-247): main tick line, numeric label, and a half tick when it still
fits. -/
def xMarkCmdsAt (g : GraphCfg) (d : Dims) (axisMarkLength deltaX spacing : ℚ)
    (labelNum : ℕ) : List DrawCmd :=
  let markPosition := d.graphX + labelNum * spacing
  [.line g.primaryColour markPosition (d.graphY + d.graphHeight - axisMarkLength)
     markPosition (d.graphY + d.graphHeight + axisMarkLength) 1,
   .textNum (sig_figs ((labelNum : ℚ) * deltaX + g.minX) 2) markPosition
     (d.graphY + d.graphHeight + (d.effectiveHeight - d.graphHeight) / 6)]
  ++ (if ((labelNum : ℚ) + 0.5) * spacing ≤ d.graphWidth then
      [.line g.primaryColour (markPosition + 0.5 * spacing)
         (d.graphY + d.graphHeight - axisMarkLength / 2)
         (markPosition + 0.5 * spacing)
         (d.graphY + d.graphHeight + axisMarkLength / 2) 1]
    else [])

/-- The x-axis marks of `Graph.draw` (dataManipulation.py lines 209-247):
for a categorical axis with labels, one centred text per category (after
dividing the graph width by the category count); otherwise the numeric
tick computation — approximate count from the density, raw interval,
`next_lowest_decimultiple`, then the mark loop.  A categorical axis
without labels falls into the numeric branch, where the missing `xScale`
(`None` in Python) raises a TypeError. -/
def xMarksCmds (g : GraphCfg) (d : Dims) (axisMarkLength : ℚ) :
    Except PyErr (List DrawCmd) :=
  match g.categoricalXAxis, g.xCategoricalLabels with
  | true, some labels => do
      let deltaLabel ← pyDiv d.graphWidth (labels.length : ℚ)
      .ok (labels.enum.map (fun il =>
        .text il.2 (d.graphX + ((il.1 : ℚ) + 0.5) * deltaLabel)
          (d.graphY + d.graphHeight + (d.effectiveHeight - d.graphHeight) / 6)))
  | _, _ => do
      let approxNumXAxisLabels : ℤ := ⌊g.axisMarkerDensity * d.graphWidth⌋
      let raw ← pyDiv (g.maxX - g.minX) (approxNumXAxisLabels : ℚ)
      let deltaXAxisLabel ← next_lowest_decimultiple raw [1, 2, 5]
      let xScale ← match d.xScale with
        | some s => Except.ok s
        | none => Except.error PyErr.typeError
      let spacing := xScale * deltaXAxisLabel
      let iters ← whileIters spacing d.graphWidth
      .ok (iters.map (xMarkCmdsAt g d axisMarkLength deltaXAxisLabel spacing)).flatten

/-- One iteration of the y-axis mark loop (dataManipulation.py lines
256-274). -/
def yMarkCmdsAt (g : GraphCfg) (d : Dims) (axisMarkLength deltaY spacing : ℚ)
    (labelNum : ℕ) : List DrawCmd :=
  let markPosition := d.graphY + d.graphHeight - labelNum * spacing
  [.line g.primaryColour (d.graphX - axisMarkLength) markPosition
     (d.graphX + axisMarkLength) markPosition 1,
   .textNum (sig_figs ((labelNum : ℚ) * deltaY + g.minY) 2)
     (d.graphX - (d.effectiveWidth - d.graphWidth) / 6) markPosition]
  ++ (if ((labelNum : ℚ) + 0.5) * spacing ≤ d.graphHeight then
      [.line g.primaryColour (d.graphX - axisMarkLength / 2)
         (markPosition - 0.5 * spacing)
         (d.graphX + axisMarkLength / 2)
         (markPosition - 0.5 * spacing) 1]
    else [])

/-- The y-axis marks of `Graph.draw` (dataManipulation.py lines 250-274). -/
def yMarksCmds (g : GraphCfg) (d : Dims) (axisMarkLength : ℚ) :
    Except PyErr (List DrawCmd) := do
  let approxNumYAxisLabels : ℤ := ⌊g.axisMarkerDensity * d.graphHeight⌋
  let raw ← pyDiv (g.maxY - g.minY) (approxNumYAxisLabels : ℚ)
  let deltaYAxisLabel ← next_lowest_decimultiple raw [1, 2, 5]
  let spacing := d.yScale * deltaYAxisLabel
  let iters ← whileIters spacing d.graphHeight
  .ok (iters.map (yMarkCmdsAt g d axisMarkLength deltaYAxisLabel spacing)).flatten

/-- `Graph.draw(window)` (dataManipulation.py lines 161-274): compute the
dimensions, then emit — in this order — border and background rectangles
(`drawBorderAndBackground`, lines 98-112), the two axis lines, the title,
the optional axis labels, the x-axis marks and the y-axis marks.  The
returned `Except` carries the dimensions on success so subclasses can
continue, or the first error; commands already emitted are kept. -/
def graphDraw (g : GraphCfg) (winW winH : ℚ) : List DrawCmd × Except PyErr Dims :=
  match set_dimensions g winW winH with
  | .error e => ([], .error e)
  | .ok d =>
      let frame : List DrawCmd :=
        [.rect g.borderColour g.x g.y d.width d.height,
         .rect g.bgColour d.effectiveX d.effectiveY d.effectiveWidth d.effectiveHeight,
         .line g.primaryColour d.graphX (d.graphY + d.graphHeight)
           (d.graphX + d.graphWidth) (d.graphY + d.graphHeight) 1,
         .line g.primaryColour d.graphX (d.graphY + d.graphHeight) d.graphX d.graphY 1,
         .text g.title (d.effectiveX + d.effectiveWidth / 2)
           (d.effectiveY + (d.effectiveHeight - d.graphHeight) / 4)]
        ++ (if g.showXAxisLabel then
            [.text g.xAxisLabel (d.graphX + d.graphWidth / 2)
               (d.graphY + d.graphHeight + 0.35 * (d.effectiveHeight - d.graphHeight))]
          else [])
        ++ (if g.showYAxisLabel then
            [.text g.yAxisLabel (d.graphX - 0.35 * (d.effectiveWidth - d.graphWidth))
               (d.graphY + d.graphHeight / 2)]
          else [])
      let axisMarkLength := 0.005 * (d.graphHeight + d.graphWidth)
      match xMarksCmds g d axisMarkLength with
      | .error e => (frame, .error e)
      | .ok xcmds =>
          match yMarksCmds g d axisMarkLength with
          | .error e => (frame ++ xcmds, .error e)
          | .ok ycmds => (frame ++ xcmds ++ ycmds, .ok d)

/-- The per-dataset body of `BoxplotGraph.drawBoxplot`
(dataManipulation.py lines 525-571): summary statistics and whisker bounds
first (any failure there emits nothing for this dataset), then the box
rectangles, median line, tail lines, tail caps and outlier circles.
`data.median` is the construction-time snapshot, equal to
`median data.data`. -/
def drawBoxplotCmds (data : DiscreteData) (x originY scale width : ℚ)
    (colour lineColour : Colour) : Except PyErr (List DrawCmd) := do
  let medianValue ← median data.data
  let q1 ← quarterOne data.data
  let q3 ← quarterThree data.data
  let iqr := q3 - q1
  let lowerBound ← value_before_threshold (q1 - 1.5 * iqr) data.data false
  let upperBound ← value_before_threshold (q3 + 1.5 * iqr) data.data true
  let outlierValues := outliers data.data lowerBound upperBound
  .ok ([.rect lineColour x (originY - q3 * scale) width ((q3 - q1) * scale),
        .rect colour (x + 2) (originY - q3 * scale + 2) (width - 4)
          ((q3 - q1) * scale - 4),
        .line lineColour x (originY - medianValue * scale) (x + width - 2)
          (originY - medianValue * scale) 3,
        .line lineColour (x + width / 2) (originY - q1 * scale) (x + width / 2)
          (originY - lowerBound * scale) 1,
        .line lineColour (x + width / 2) (originY - q3 * scale) (x + width / 2)
          (originY - upperBound * scale) 1,
        .line lineColour (x + width / 3) (originY - lowerBound * scale)
          (x + 2 * width / 3) (originY - lowerBound * scale) 1,
        .line lineColour (x + width / 3) (originY - upperBound * scale)
          (x + 2 * width / 3) (originY - upperBound * scale) 1]
      ++ (outlierValues.map (fun value =>
           [DrawCmd.circle colour (x + width / 2) (originY - value * scale)
              (width * 0.05) 0,
            DrawCmd.circle lineColour (x + width / 2) (originY - value * scale)
              (width * 0.05) 1])).flatten)

/-- Run a sequence of per-dataset command computations in order, keeping
the commands emitted before the first failure. -/
def runSeq : List (Except PyErr (List DrawCmd)) → List DrawCmd × Option PyErr
  | [] => ([], none)
  | .error e :: _ => ([], some e)
  | .ok cmds :: rest =>
      let r := runSeq rest
      (cmds ++ r.1, r.2)

/-- `BoxplotGraph.draw(window)` (dataManipulation.py lines 508-523): the
shared frame via `Graph.draw`, then `boxWidth = graphWidth / numDatasets`
(ZeroDivisionError for zero datasets) and one `drawBoxplot` per dataset.
A `None` entry in `colours` falls back to (100, 100, 100); the line colour
halves each channel. -/
def boxplotDraw (datasets : List DiscreteData) (colours : List (Option Colour))
    (g : GraphCfg) (winW winH : ℚ) : List DrawCmd × Option PyErr :=
  match graphDraw g winW winH with
  | (cmds, .error e) => (cmds, some e)
  | (cmds, .ok d) =>
      match pyDiv d.graphWidth (datasets.length : ℚ) with
      | .error e => (cmds, some e)
      | .ok boxWidth =>
          let boxProportion : ℚ := 0.9
          let r := runSeq (datasets.enum.map (fun ids =>
            let boxX := d.graphX + ((ids.1 : ℚ) + 0.5 * (1 - boxProportion)) * boxWidth
            let colour := (colours.getD ids.1 none).getD (100, 100, 100)
            let lineColour : Colour :=
              ((0 + colour.1) / 2, (0 + colour.2.1) / 2, (0 + colour.2.2) / 2)
            drawBoxplotCmds ids.2 boxX d.originY d.yScale (boxWidth * boxProportion)
              colour lineColour))
          (cmds ++ r.1, r.2)

/-- `draw_line(...)` (dataManipulation.py lines 886-890): the best-fit
segment between `startX` and `endX` in data space, mapped to pixels. -/
def draw_line_cmd (originX originY xScale yScale slope intercept startX endX : ℚ)
    (colour : Colour) : DrawCmd :=
  .line colour (originX + xScale * startX)
    (originY - yScale * (intercept + slope * startX))
    (originX + xScale * endX)
    (originY - yScale * (intercept + slope * endX)) 1

/-- The per-dataset body of `Scatterplot.draw` (dataManipulation.py lines
704-726): one circle per point, then optionally that dataset's best-fit
line over its own x-domain. -/
def scatterDatasetCmds (d : Dims) (originX xScale : ℚ)
    (dataset : MultivariableDiscreteData) (colour : Colour) (pointSize : ℚ)
    (bestFitLine : Bool) : Except PyErr (List DrawCmd) := do
  let pointCmds := dataset.pointsList.map (fun p =>
    DrawCmd.circle colour (originX + p.1 * xScale) (d.originY - p.2 * d.yScale)
      pointSize 0)
  if bestFitLine then do
    let si ← linear_regression (dataset.getData 0) (dataset.getData 1)
    let startX ← pyMin (dataset.getData 0)
    let endX ← pyMax (dataset.getData 0)
    .ok (pointCmds ++
      [draw_line_cmd originX d.originY xScale d.yScale si.1 si.2 startX endX colour])
  else
    .ok pointCmds

/-- `Scatterplot.draw(window)` (dataManipulation.py lines 696-746): the
shared frame via `Graph.draw`, then per dataset its points and optional
best-fit line, then the optional combined best-fit line over the union of
all datasets.  A scatterplot always has a numeric x axis, so
`xScale`/`originX` are set; the defensive `typeError` branch mirrors the
Python arithmetic on `None` otherwise. -/
def scatterDraw (datasets : List MultivariableDiscreteData) (colours : List Colour)
    (bestFitLines : List Bool) (mainBestFitLine : Bool)
    (pointSizes : List (Option ℚ)) (g : GraphCfg) (winW winH : ℚ) :
    List DrawCmd × Option PyErr :=
  match graphDraw g winW winH with
  | (cmds, .error e) => (cmds, some e)
  | (cmds, .ok d) =>
      match d.xScale, d.originX with
      | some xScale, some originX =>
          let defaultPointSize := 0.007 * (d.graphWidth + d.graphHeight)
          let r := runSeq (datasets.enum.map (fun ids =>
            scatterDatasetCmds d originX xScale ids.2
              (colours.getD ids.1 g.primaryColour)
              ((pointSizes.getD ids.1 none).getD defaultPointSize)
              (bestFitLines.getD ids.1 false)))
          match r.2 with
          | some e => (cmds ++ r.1, some e)
          | none =>
              if mainBestFitLine then
                let xData := (datasets.map (fun dataset => dataset.getData 0)).flatten
                let yData := (datasets.map (fun dataset => dataset.getData 1)).flatten
                match (do
                    let si ← linear_regression xData yData
                    let startX ← pyMin xData
                    let endX ← pyMax xData
                    Except.ok (draw_line_cmd originX d.originY xScale d.yScale
                      si.1 si.2 startX endX g.primaryColour)) with
                | .error e => (cmds ++ r.1, some e)
                | .ok lineCmd => (cmds ++ r.1 ++ [lineCmd], none)
              else (cmds ++ r.1, none)
      | _, _ => (cmds, some .typeError)


/-- Concrete numeric-axis configuration for the C5 scenarios: a 100 x 100
pixel rectangle at the origin with graphSize 1 and borderWidth 0, x range
[0, 1], y range [1, 2]. -/
def c5Cfg : GraphCfg :=
  ⟨2, false, 1, 1, 0, none, 0, 0, some 100, some 100, 1, 0, (255, 255, 255),
   (0, 0, 0), (0, 0, 0), "", true, true, "", "", 0.008⟩

/-- Concrete boxplot configuration with a zero-height pixel rectangle, as
`BoxplotGraph.__init__` derives it for the dataset [1, 2] labelled "A"
with width 200 and height 0 (the C8 fail-fast scenario). -/
def bpZeroHeightCfg : GraphCfg :=
  ⟨2, true, 0, 1, 0, some ["A"], 0, 0, some 200, some 0, 0.75, 0, (255, 255, 255),
   (100, 100, 100), (0, 0, 0), "t", true, true, "x", "y", 0.008⟩

/-- Concrete scatterplot configuration with a zero-width pixel rectangle,
as `Scatterplot.__init__` derives it for one 2-D dataset with x values
[1, 2] and y values [3, 4], width 0 and height 100. -/
def scZeroWidthCfg : GraphCfg :=
  ⟨4, false, 2, 3, 1, none, 0, 0, some 0, some 100, 0.75, 0, (255, 255, 255),
   (100, 100, 100), (0, 0, 0), "t", true, true, "x", "y", 0.008⟩

/-- The 2-D dataset of the zero-width scatter scenario. -/
def scDataset : MultivariableDiscreteData :=
  ⟨"t", 2, [⟨[1, 2], "x", ""⟩, ⟨[3, 4], "y", ""⟩], 2⟩

/-- Concrete boxplot configuration (200 x 300 pixels, y range [0, 10],
caller-supplied bounds) whose constant dataset [5, 5] makes the whisker
search fail only after the whole frame and tick marks were emitted. -/
def bpConstantDataCfg : GraphCfg :=
  ⟨10, true, 0, 0, 0, some ["A"], 0, 0, some 200, some 300, 0.75, 0, (255, 255, 255),
   (100, 100, 100), (0, 0, 0), "t", true, true, "x", "y", 0.008⟩

/-! ### Helper lemmas: list access, sortedness, and the threshold search -/

theorem getD_eq_get : ∀ (l : List ℚ) (i : ℕ) (h : i < l.length), l.getD i 0 = l.get ⟨i, h⟩
  | _ :: _, 0, _ => rfl
  | _ :: l, i + 1, h => getD_eq_get l i (Nat.lt_of_succ_lt_succ h)

theorem getD_mem (l : List ℚ) (i : ℕ) (h : i < l.length) : l.getD i 0 ∈ l := by
  rw [getD_eq_get l i h]
  exact List.get_mem l i h

theorem mem_exists_getD (l : List ℚ) (v : ℚ) (hv : v ∈ l) :
    ∃ i, ∃ _hlt : i < l.length, l.getD i 0 = v := by
  obtain ⟨⟨i, hi⟩, hn⟩ := List.mem_iff_get.mp hv
  refine ⟨i, hi, ?_⟩
  rw [getD_eq_get l i hi]
  exact hn

theorem sorted_getD_le (l : List ℚ) (hs : l.Sorted (· ≤ ·)) (i j : ℕ) (hij : i ≤ j)
    (hj : j < l.length) : l.getD i 0 ≤ l.getD j 0 := by
  have hi : i < l.length := Nat.lt_of_le_of_lt hij hj
  rw [getD_eq_get l i hi, getD_eq_get l j hj]
  exact hs.rel_get_of_le (show (⟨i, hi⟩ : Fin l.length) ≤ ⟨j, hj⟩ from hij)

theorem pyGet_ofNat (l : List ℚ) (i : ℕ) (h : i < l.length) :
    pyGet l (i : ℤ) = .ok (l.getD i 0) := by
  have h0 : ¬((i : ℤ) < 0) := by omega
  have h1 : (0 : ℤ) ≤ (i : ℤ) := by omega
  simp only [pyGet, if_neg h0, if_pos h1, Int.toNat_natCast]
  rw [List.get?_eq_get h, getD_eq_get l i h]

theorem pyGet_neg_one (l : List ℚ) (h : l ≠ []) :
    pyGet l (-1) = .ok (l.getD (l.length - 1) 0) := by
  have hlen : 1 ≤ l.length := List.length_pos.mpr h
  have h0 : ((-1 : ℤ)) < 0 := by omega
  have h1 : (0 : ℤ) ≤ -1 + (l.length : ℤ) := by omega
  have h2 : ((-1 : ℤ) + (l.length : ℤ)).toNat = l.length - 1 := by omega
  have h3 : l.length - 1 < l.length := by omega
  simp only [pyGet, if_pos h0, if_pos h1, h2]
  rw [List.get?_eq_get h3, getD_eq_get l _ h3]

theorem firstIdxAbove_none_iff (b : ℚ) (l : List ℚ) :
    firstIdxAbove b l = none ↔ ∀ v ∈ l, v ≤ b := by
  induction l with
  | nil => simp [firstIdxAbove]
  | cons a l ih =>
      simp only [firstIdxAbove]
      by_cases h : b < a
      · rw [if_pos h]
        constructor
        · intro hc; exact absurd hc (Option.some_ne_none 0)
        · intro hall; exact absurd (hall a (List.mem_cons_self a l)) (not_le.mpr h)
      · rw [if_neg h]
        rw [Option.map_eq_none', ih]
        constructor
        · intro hall v hv
          rcases List.mem_cons.mp hv with rfl | hvl
          · exact le_of_not_lt h
          · exact hall v hvl
        · intro hall v hv; exact hall v (List.mem_cons_of_mem a hv)

theorem firstIdxAbove_some_spec (b : ℚ) :
    ∀ (l : List ℚ) (i : ℕ), firstIdxAbove b l = some i →
      i < l.length ∧ b < l.getD i 0 ∧ ∀ j, j < i → l.getD j 0 ≤ b := by
  intro l
  induction l with
  | nil => intro i h; simp [firstIdxAbove] at h
  | cons a l ih =>
      intro i h
      simp only [firstIdxAbove] at h
      by_cases hb : b < a
      · rw [if_pos hb] at h
        obtain rfl : 0 = i := by simpa using h
        exact ⟨Nat.succ_pos _, hb, fun j hj => absurd hj (Nat.not_lt_zero j)⟩
      · rw [if_neg hb] at h
        obtain ⟨i', hi', rfl⟩ := Option.map_eq_some'.mp h
        obtain ⟨h1, h2, h3⟩ := ih i' hi'
        refine ⟨Nat.succ_lt_succ h1, h2, ?_⟩
        intro j hj
        match j with
        | 0 => exact le_of_not_lt hb
        | j + 1 => exact h3 j (Nat.lt_of_succ_lt_succ hj)

theorem sortAsc_perm (values : List ℚ) : (sortAsc values).Perm values :=
  List.perm_insertionSort _ values

theorem sortAsc_sorted (values : List ℚ) : (sortAsc values).Sorted (· ≤ ·) :=
  List.sorted_insertionSort _ values

theorem value_before_threshold_false_found (values : List ℚ) (b : ℚ)
    (h : ∃ v ∈ values, b < v) :
    ∃ m, value_before_threshold b values false = .ok m ∧ m ∈ values ∧ b < m ∧
      ∀ v ∈ values, b < v → m ≤ v := by
  have hperm := sortAsc_perm values
  have hsort := sortAsc_sorted values
  cases hfi : firstIdxAbove b (sortAsc values) with
  | none =>
      exfalso
      rw [firstIdxAbove_none_iff] at hfi
      obtain ⟨v, hv, hbv⟩ := h
      exact absurd (hfi v (hperm.mem_iff.mpr hv)) (not_le.mpr hbv)
  | some i =>
      obtain ⟨hi, hbi, hbefore⟩ := firstIdxAbove_some_spec b (sortAsc values) i hfi
      have hres : value_before_threshold b values false = pyGet (sortAsc values) (i : ℤ) := by
        simp only [value_before_threshold, hfi]
        norm_num
      refine ⟨(sortAsc values).getD i 0, ?_, ?_, hbi, ?_⟩
      · rw [hres]
        exact pyGet_ofNat _ i hi
      · exact hperm.mem_iff.mp (getD_mem _ i hi)
      · intro v hv hbv
        obtain ⟨j, hj, hgj⟩ := mem_exists_getD _ v (hperm.mem_iff.mpr hv)
        rcases Nat.lt_or_ge j i with hlt | hge
        · have hjb := hbefore j hlt
          rw [hgj] at hjb
          exact absurd hbv (not_lt.mpr hjb)
        · rw [← hgj]
          exact sorted_getD_le _ hsort i j hge hj

theorem value_before_threshold_false_none (values : List ℚ) (b : ℚ)
    (h : ∀ v ∈ values, v ≤ b) :
    value_before_threshold b values false = .error .valueErrorNoValuesAbove := by
  have hperm := sortAsc_perm values
  have hfi : firstIdxAbove b (sortAsc values) = none := by
    rw [firstIdxAbove_none_iff]
    intro v hv
    exact h v (hperm.mem_iff.mp hv)
  simp only [value_before_threshold, hfi]
  norm_num

theorem value_before_threshold_true_all_le (values : List ℚ) (b : ℚ)
    (hne : values ≠ []) (h : ∀ v ∈ values, v ≤ b) :
    ∃ m, value_before_threshold b values true = .ok m ∧ m ∈ values ∧
      ∀ v ∈ values, v ≤ m := by
  have hperm := sortAsc_perm values
  have hsort := sortAsc_sorted values
  have hsne : sortAsc values ≠ [] := by
    intro hc
    apply hne
    have hl := hperm.length_eq
    rw [hc] at hl
    exact List.eq_nil_of_length_eq_zero hl.symm
  have hlen : 1 ≤ (sortAsc values).length := List.length_pos.mpr hsne
  have hfi : firstIdxAbove b (sortAsc values) = none := by
    rw [firstIdxAbove_none_iff]
    intro v hv
    exact h v (hperm.mem_iff.mp hv)
  have hres : value_before_threshold b values true = pyGet (sortAsc values) (-1) := by
    simp only [value_before_threshold, hfi]
    norm_num
  refine ⟨(sortAsc values).getD ((sortAsc values).length - 1) 0, ?_, ?_, ?_⟩
  · rw [hres]
    exact pyGet_neg_one _ hsne
  · exact hperm.mem_iff.mp (getD_mem _ _ (by omega))
  · intro v hv
    obtain ⟨j, hj, hgj⟩ := mem_exists_getD _ v (hperm.mem_iff.mpr hv)
    rw [← hgj]
    exact sorted_getD_le _ hsort j ((sortAsc values).length - 1) (by omega) (by omega)

theorem value_before_threshold_true_mixed (values : List ℚ) (b : ℚ)
    (h1 : ∃ v ∈ values, v ≤ b) (h2 : ∃ v ∈ values, b < v) :
    ∃ m, value_before_threshold b values true = .ok m ∧ m ∈ values ∧ m ≤ b ∧
      ∀ v ∈ values, v ≤ b → v ≤ m := by
  have hperm := sortAsc_perm values
  have hsort := sortAsc_sorted values
  cases hfi : firstIdxAbove b (sortAsc values) with
  | none =>
      exfalso
      rw [firstIdxAbove_none_iff] at hfi
      obtain ⟨v, hv, hbv⟩ := h2
      exact absurd (hfi v (hperm.mem_iff.mpr hv)) (not_le.mpr hbv)
  | some i =>
      obtain ⟨hi, hbi, hbefore⟩ := firstIdxAbove_some_spec b (sortAsc values) i hfi
      have hipos : 1 ≤ i := by
        by_contra hc
        obtain rfl : i = 0 := by omega
        obtain ⟨v, hv, hvb⟩ := h1
        obtain ⟨j, hj, hgj⟩ := mem_exists_getD _ v (hperm.mem_iff.mpr hv)
        have : (sortAsc values).getD 0 0 ≤ (sortAsc values).getD j 0 :=
          sorted_getD_le _ hsort 0 j (Nat.zero_le j) hj
        rw [hgj] at this
        exact absurd (lt_of_lt_of_le hbi this) (not_lt.mpr hvb)
      have hres : value_before_threshold b values true = pyGet (sortAsc values) ((i - 1 : ℕ) : ℤ) := by
        simp only [value_before_threshold, hfi]
        norm_num
        congr 1
        omega
      refine ⟨(sortAsc values).getD (i - 1) 0, ?_, ?_, ?_, ?_⟩
      · rw [hres]
        exact pyGet_ofNat _ (i - 1) (by omega)
      · exact hperm.mem_iff.mp (getD_mem _ _ (by omega))
      · exact hbefore (i - 1) (by omega)
      · intro v hv hvb
        obtain ⟨j, hj, hgj⟩ := mem_exists_getD _ v (hperm.mem_iff.mpr hv)
        have hji : j < i := by
          by_contra hc
          have : (sortAsc values).getD i 0 ≤ (sortAsc values).getD j 0 :=
            sorted_getD_le _ hsort i j (by omega) hj
          rw [hgj] at this
          exact absurd (lt_of_lt_of_le hbi this) (not_lt.mpr hvb)
        rw [← hgj]
        exact sorted_getD_le _ hsort j (i - 1) (by omega) (by omega)

theorem value_before_threshold_true_all_gt (values : List ℚ) (b : ℚ)
    (hne : values ≠ []) (h : ∀ v ∈ values, b < v) :
    ∃ m, value_before_threshold b values true = .ok m ∧ m ∈ values ∧
      ∀ v ∈ values, v ≤ m := by
  have hperm := sortAsc_perm values
  have hsort := sortAsc_sorted values
  have hsne : sortAsc values ≠ [] := by
    intro hc
    apply hne
    have hl := hperm.length_eq
    rw [hc] at hl
    exact List.eq_nil_of_length_eq_zero hl.symm
  have hlen : 1 ≤ (sortAsc values).length := List.length_pos.mpr hsne
  cases hfi : firstIdxAbove b (sortAsc values) with
  | none =>
      exfalso
      rw [firstIdxAbove_none_iff] at hfi
      have hmem := getD_mem (sortAsc values) 0 (by omega)
      exact absurd (h _ (hperm.mem_iff.mp hmem)) (not_lt.mpr (hfi _ hmem))
  | some i =>
      obtain ⟨hi, hbi, hbefore⟩ := firstIdxAbove_some_spec b (sortAsc values) i hfi
      obtain rfl : i = 0 := by
        by_contra hc
        have h0 := hbefore 0 (by omega)
        have hmem := getD_mem (sortAsc values) 0 (by omega)
        exact absurd (h _ (hperm.mem_iff.mp hmem)) (not_lt.mpr h0)
      have hres : value_before_threshold b values true = pyGet (sortAsc values) (-1) := by
        simp only [value_before_threshold, hfi]
        norm_num
      refine ⟨(sortAsc values).getD ((sortAsc values).length - 1) 0, ?_, ?_, ?_⟩
      · rw [hres]
        exact pyGet_neg_one _ hsne
      · exact hperm.mem_iff.mp (getD_mem _ _ (by omega))
      · intro v hv
        obtain ⟨j, hj, hgj⟩ := mem_exists_getD _ v (hperm.mem_iff.mpr hv)
        rw [← hgj]
        exact sorted_getD_le _ hsort j ((sortAsc values).length - 1) (by omega) (by omega)

theorem quarter_spec (data : List ℚ) (hne : data ≠ []) :
    (((sortAsc data).length - 1) % 4 = 0 →
      quarterOne data = .ok ((sortAsc data).getD (((sortAsc data).length - 1) / 4) 0) ∧
      quarterThree data =
        .ok ((sortAsc data).getD (3 * (((sortAsc data).length - 1) / 4)) 0)) ∧
    (((sortAsc data).length - 1) % 4 ≠ 0 →
      quarterOne data = .ok ((((sortAsc data).getD (((sortAsc data).length - 1) / 4) 0) +
        ((sortAsc data).getD (((sortAsc data).length - 1) / 4 + 1) 0)) / 2) ∧
      quarterThree data =
        .ok ((((sortAsc data).getD (3 * (((sortAsc data).length - 1) / 4)) 0) +
          ((sortAsc data).getD (3 * (((sortAsc data).length - 1) / 4) + 1) 0)) / 2)) := by
  have hlenEq := (sortAsc_perm data).length_eq
  have hd : data.length ≠ 0 := fun hc => hne (List.eq_nil_of_length_eq_zero hc)
  have hn : 1 ≤ (sortAsc data).length := by omega
  constructor
  · intro hc
    have hcond : ((((sortAsc data).length : ℤ)) - 1) % 4 = 0 := by omega
    have e1 : ((((sortAsc data).length : ℤ)) - 1) / 4 =
        ((((sortAsc data).length - 1) / 4 : ℕ) : ℤ) := by omega
    have e3 : 3 * (((((sortAsc data).length : ℤ)) - 1) / 4) =
        ((3 * (((sortAsc data).length - 1) / 4) : ℕ) : ℤ) := by omega
    constructor
    · simp only [quarterOne, if_pos hcond]
      rw [e1]
      exact pyGet_ofNat _ _ (by omega)
    · simp only [quarterThree, if_pos hcond]
      rw [e3]
      exact pyGet_ofNat _ _ (by omega)
  · intro hc
    have hcond : ¬(((((sortAsc data).length : ℤ)) - 1) % 4 = 0) := by omega
    have t1 : Int.tdiv ((((sortAsc data).length : ℤ)) - 1) 4 =
        ((((sortAsc data).length - 1) / 4 : ℕ) : ℤ) := by
      rw [Int.tdiv_eq_ediv (by omega) (by omega)]
      omega
    constructor
    · simp only [quarterOne, if_neg hcond]
      rw [t1]
      have t2 : ((((sortAsc data).length - 1) / 4 : ℕ) : ℤ) + 1 =
          ((((sortAsc data).length - 1) / 4 + 1 : ℕ) : ℤ) := by omega
      rw [t2, pyGet_ofNat _ _ (by omega : ((sortAsc data).length - 1) / 4 < (sortAsc data).length),
        pyGet_ofNat _ _ (by omega : ((sortAsc data).length - 1) / 4 + 1 < (sortAsc data).length)]
      rfl
    · simp only [quarterThree, if_neg hcond]
      have t3 : 3 * Int.tdiv ((((sortAsc data).length : ℤ)) - 1) 4 =
          ((3 * (((sortAsc data).length - 1) / 4) : ℕ) : ℤ) := by
        rw [Int.tdiv_eq_ediv (by omega) (by omega)]
        omega
      rw [t3]
      have t4 : ((3 * (((sortAsc data).length - 1) / 4) : ℕ) : ℤ) + 1 =
          ((3 * (((sortAsc data).length - 1) / 4) + 1 : ℕ) : ℤ) := by omega
      rw [t4, pyGet_ofNat _ _
          (by omega : 3 * (((sortAsc data).length - 1) / 4) < (sortAsc data).length),
        pyGet_ofNat _ _
          (by omega : 3 * (((sortAsc data).length - 1) / 4) + 1 < (sortAsc data).length)]
      rfl

theorem list_sum_eq_range (l : List ℚ) :
    l.sum = ∑ i in Finset.range l.length, l.getD i 0 := by
  induction l with
  | nil => simp
  | cons a l ih =>
      rw [List.sum_cons, ih, List.length_cons, Finset.sum_range_succ']
      simp only [List.getD_cons_succ, List.getD_cons_zero]
      ring

theorem zipWith_mul_sum_eq_range (l1 l2 : List ℚ) (h : l1.length = l2.length) :
    (List.zipWith (· * ·) l1 l2).sum =
      ∑ i in Finset.range l1.length, l1.getD i 0 * l2.getD i 0 := by
  induction l1 generalizing l2 with
  | nil => simp
  | cons a l ih =>
      cases l2 with
      | nil => simp at h
      | cons b l2 =>
          rw [List.zipWith_cons_cons, List.sum_cons, ih l2 (by simpa using h),
            List.length_cons, Finset.sum_range_succ']
          simp only [List.getD_cons_succ, List.getD_cons_zero]
          ring

theorem scaled_denom_key (n : ℕ) (f : ℕ → ℚ) :
    (n : ℚ) * ((n : ℚ) * (∑ i in Finset.range n, f i * f i) -
        (∑ i in Finset.range n, f i) ^ 2) =
      ∑ i in Finset.range n, ((n : ℚ) * f i - ∑ j in Finset.range n, f j) ^ 2 := by
  have expand : ∀ i, ((n : ℚ) * f i - ∑ j in Finset.range n, f j) ^ 2 =
      (n : ℚ) ^ 2 * (f i * f i) -
        (2 * (n : ℚ) * (∑ j in Finset.range n, f j)) * f i +
        (∑ j in Finset.range n, f j) ^ 2 := by
    intro i
    ring
  simp_rw [expand]
  rw [Finset.sum_add_distrib, Finset.sum_sub_distrib, ← Finset.mul_sum, ← Finset.mul_sum,
    Finset.sum_const, Finset.card_range, nsmul_eq_mul]
  ring

theorem denom_eq_zero_iff (xs : List ℚ) :
    (xs.length : ℚ) * (List.zipWith (· * ·) xs xs).sum - xs.sum ^ 2 = 0 ↔
      ∀ x ∈ xs, ∀ y ∈ xs, x = y := by
  rcases eq_or_ne xs [] with rfl | hne
  · simp
  · have hn : 0 < xs.length := List.length_pos.mpr hne
    rw [zipWith_mul_sum_eq_range xs xs rfl, list_sum_eq_range]
    constructor
    · intro h0
      have key := scaled_denom_key xs.length (fun i => xs.getD i 0)
      rw [h0, mul_zero] at key
      have hz : ∀ i ∈ Finset.range xs.length,
          ((xs.length : ℚ) * xs.getD i 0 - ∑ j in Finset.range xs.length, xs.getD j 0) ^ 2
            = 0 := by
        intro i hi
        exact (Finset.sum_eq_zero_iff_of_nonneg (fun i _ => sq_nonneg _)).mp key.symm i hi
      have heq : ∀ i ∈ Finset.range xs.length,
          (xs.length : ℚ) * xs.getD i 0 = ∑ j in Finset.range xs.length, xs.getD j 0 := by
        intro i hi
        have h2 := (pow_eq_zero_iff two_ne_zero).mp (hz i hi)
        linarith [sub_eq_zero.mp h2]
      intro x hx y hy
      obtain ⟨i, hi, hgi⟩ := mem_exists_getD xs x hx
      obtain ⟨j, hj, hgj⟩ := mem_exists_getD xs y hy
      have hx' := heq i (Finset.mem_range.mpr hi)
      have hy' := heq j (Finset.mem_range.mpr hj)
      rw [hgi] at hx'
      rw [hgj] at hy'
      have hnz : (xs.length : ℚ) ≠ 0 := by positivity
      exact mul_left_cancel₀ hnz (hx'.trans hy'.symm)
    · intro hall
      have hg : ∀ i ∈ Finset.range xs.length, xs.getD i 0 = xs.getD 0 0 := by
        intro i hi
        exact hall _ (getD_mem _ _ (Finset.mem_range.mp hi)) _ (getD_mem _ _ hn)
      rw [Finset.sum_congr rfl (fun i hi => by rw [hg i hi]), Finset.sum_congr rfl hg]
      simp only [Finset.sum_const, Finset.card_range, nsmul_eq_mul]
      ring

theorem except_bind_ok {ε α β : Type _} (a : α) (f : α → Except ε β) :
    (Except.ok (ε := ε) a >>= f) = f a := rfl

theorem except_bind_error {ε α β : Type _} (e : ε) (f : α → Except ε β) :
    (Except.error (α := α) e >>= f) = Except.error e := rfl

theorem whileIters_spec (spacing limit : ℚ) (hs : 0 < spacing) (hl : 0 ≤ limit) :
    whileIters spacing limit = .ok (List.range (⌊limit / spacing⌋ + 1).toNat) ∧
    ∀ n : ℕ, n ∈ List.range (⌊limit / spacing⌋ + 1).toNat ↔ (n : ℚ) * spacing ≤ limit := by
  constructor
  · unfold whileIters
    rw [if_neg (not_lt.mpr hl), if_pos hs]
  · intro n
    rw [List.mem_range, Int.lt_toNat, Int.lt_add_one_iff, Int.le_floor]
    rw [le_div_iff₀ hs]
    norm_cast

theorem nld_spec (r : ℚ) (hr : 0 < r) :
    ∃ c, (c = 1 ∨ c = 2 ∨ c = 5) ∧
      next_lowest_decimultiple r [1, 2, 5] = .ok (c * (10 : ℚ) ^ Int.log 10 r) ∧
      c ≤ r / (10 : ℚ) ^ Int.log 10 r ∧
      ∀ c₂ : ℚ, (c₂ = 1 ∨ c₂ = 2 ∨ c₂ = 5) → c₂ ≤ r / (10 : ℚ) ^ Int.log 10 r → c₂ ≤ c := by
  have hm1 : (1 : ℚ) ≤ r / (10 : ℚ) ^ Int.log 10 r := by
    rw [le_div_iff₀ (by positivity)]
    have := Int.zpow_log_le_self (b := 10) (R := ℚ) (by norm_num) hr
    simpa using this
  have hsorted : ([1, 2, 5] : List ℚ).insertionSort (· ≥ ·) = [5, 2, 1] := by
    with_unfolding_all rfl
  have hne : ¬ (r ≤ 0) := not_le.mpr hr
  simp only [next_lowest_decimultiple, if_neg hne, hsorted]
  rcases le_or_lt 5 (r / (10 : ℚ) ^ Int.log 10 r) with h5 | h5
  · refine ⟨5, by norm_num, ?_, h5, fun c₂ hc₂ _ => by rcases hc₂ with rfl | rfl | rfl <;> norm_num⟩
    rw [List.find?_cons_of_pos _ (by simpa using h5)]
    rfl
  · rcases le_or_lt 2 (r / (10 : ℚ) ^ Int.log 10 r) with h2 | h2
    · refine ⟨2, by norm_num, ?_, h2, ?_⟩
      · rw [List.find?_cons_of_neg _ (by simpa using not_le.mpr h5),
          List.find?_cons_of_pos _ (by simpa using h2)]
        rfl
      · intro c₂ hc₂ hcm
        rcases hc₂ with rfl | rfl | rfl
        · norm_num
        · norm_num
        · exact absurd hcm (not_le.mpr h5)
    · refine ⟨1, by norm_num, ?_, hm1, ?_⟩
      · rw [List.find?_cons_of_neg _ (by simpa using not_le.mpr h5),
          List.find?_cons_of_neg _ (by simpa using not_le.mpr h2),
          List.find?_cons_of_pos _ (by simpa using hm1)]
        rfl
      · intro c₂ hc₂ hcm
        rcases hc₂ with rfl | rfl | rfl
        · norm_num
        · exact absurd hcm (not_le.mpr h2)
        · exact absurd hcm (not_le.mpr h5)

/-! ### Claim theorems -/

/-- C1 (counterexample).  Take values = [1, 2] and q1 = q3 = 5 (iqr = 0).
Every value lies at or below the notional lower cutoff 5, so the claim
says the lower search returns the largest such value (2) — but the code
raises the no-values-above ValueError.  No value lies above the notional
upper cutoff 5, so the claim says the upper search fails with
NoValueAboveThresholdError — but the code returns the overall maximum 2.
The asymmetry of the two searches is the reverse of the claimed one. -/
theorem C1_counterexample :
    (∃ v ∈ [(1 : ℚ), 2], v ≤ 5 - 1.5 * ((5 : ℚ) - 5)) ∧
    value_before_threshold (5 - 1.5 * ((5 : ℚ) - 5)) [1, 2] false =
      .error .valueErrorNoValuesAbove ∧
    (∀ v ∈ [(1 : ℚ), 2], v < 5 + 1.5 * ((5 : ℚ) - 5)) ∧
    value_before_threshold (5 + 1.5 * ((5 : ℚ) - 5)) [1, 2] true = .ok 2 := by
  refine ⟨⟨1, by norm_num, by norm_num⟩, by with_unfolding_all rfl, ?_,
    by with_unfolding_all rfl⟩
  intro v hv
  rcases List.mem_cons.mp hv with rfl | hv
  · norm_num
  · rcases List.mem_cons.mp hv with rfl | hv
    · norm_num
    · simp at hv

/-- C1 (amended).  For every non-empty list and quartiles q1, q3 with
iqr = q3 − q1, the whisker-fence search of `drawBoxplot`
(`value_before_threshold` with belowThreshold = False for the lower call
and True for the upper call) returns: as lower fence the smallest data
value strictly above q1 − 1.5·iqr, raising the no-values-above ValueError
when no value lies above that cutoff; and as upper fence the largest data
value ≤ q3 + 1.5·iqr when values lie on both sides of the cutoff, and the
overall maximum when no value lies above it (and also, by negative-index
wraparound, when every value lies above it).  The asymmetry is the
reverse of the claimed one: the upper search degrades gracefully, the
lower search does not. -/
theorem C1_tukey_fence_search (values : List ℚ) (hne : values ≠ []) (q1 q3 : ℚ) :
    ((∃ v ∈ values, q1 - 1.5 * (q3 - q1) < v) →
      ∃ lo, value_before_threshold (q1 - 1.5 * (q3 - q1)) values false = .ok lo ∧
        lo ∈ values ∧ q1 - 1.5 * (q3 - q1) < lo ∧
        ∀ v ∈ values, q1 - 1.5 * (q3 - q1) < v → lo ≤ v) ∧
    ((∀ v ∈ values, v ≤ q1 - 1.5 * (q3 - q1)) →
      value_before_threshold (q1 - 1.5 * (q3 - q1)) values false =
        .error .valueErrorNoValuesAbove) ∧
    ((∀ v ∈ values, v ≤ q3 + 1.5 * (q3 - q1)) →
      ∃ hi, value_before_threshold (q3 + 1.5 * (q3 - q1)) values true = .ok hi ∧
        hi ∈ values ∧ ∀ v ∈ values, v ≤ hi) ∧
    ((∃ v ∈ values, v ≤ q3 + 1.5 * (q3 - q1)) →
      (∃ v ∈ values, q3 + 1.5 * (q3 - q1) < v) →
      ∃ hi, value_before_threshold (q3 + 1.5 * (q3 - q1)) values true = .ok hi ∧
        hi ∈ values ∧ hi ≤ q3 + 1.5 * (q3 - q1) ∧
        ∀ v ∈ values, v ≤ q3 + 1.5 * (q3 - q1) → v ≤ hi) ∧
    ((∀ v ∈ values, q3 + 1.5 * (q3 - q1) < v) →
      ∃ hi, value_before_threshold (q3 + 1.5 * (q3 - q1)) values true = .ok hi ∧
        hi ∈ values ∧ ∀ v ∈ values, v ≤ hi) :=
  ⟨fun h => value_before_threshold_false_found values _ h,
   fun h => value_before_threshold_false_none values _ h,
   fun h => value_before_threshold_true_all_le values _ hne h,
   fun h1 h2 => value_before_threshold_true_mixed values _ h1 h2,
   fun h => value_before_threshold_true_all_gt values _ hne h⟩

/-- C1 (witness).  On [1, 2, 3, 100] with q1 = 2, q3 = 3 the lower search
returns the smallest value above 0.5, namely 1. -/
theorem C1_witness :
    ∃ lo, value_before_threshold (2 - 1.5 * ((3 : ℚ) - 2)) [1, 2, 3, 100] false = .ok lo ∧
      lo ∈ [(1 : ℚ), 2, 3, 100] ∧ 2 - 1.5 * ((3 : ℚ) - 2) < lo ∧
      ∀ v ∈ [(1 : ℚ), 2, 3, 100], 2 - 1.5 * ((3 : ℚ) - 2) < v → lo ≤ v :=
  (C1_tukey_fence_search [1, 2, 3, 100] (List.cons_ne_nil _ _) 2 3).1
    ⟨1, by norm_num, by norm_num⟩

/-- C2.  For every non-empty list whose ascending sort has length n, with
k = ⌊(n−1)/4⌋: when 4 divides n − 1, quarterOne is the sorted value at
index k and quarterThree the sorted value at index 3k; otherwise
quarterOne averages the sorted values at indices k and k+1, and
quarterThree those at indices 3k and 3k+1. -/
theorem C2_quartile_rank_rule (values : List ℚ) (hne : values ≠ []) :
    (((sortAsc values).length - 1) % 4 = 0 →
      quarterOne values = .ok ((sortAsc values).getD (((sortAsc values).length - 1) / 4) 0) ∧
      quarterThree values =
        .ok ((sortAsc values).getD (3 * (((sortAsc values).length - 1) / 4)) 0)) ∧
    (((sortAsc values).length - 1) % 4 ≠ 0 →
      quarterOne values = .ok ((((sortAsc values).getD (((sortAsc values).length - 1) / 4) 0) +
        ((sortAsc values).getD (((sortAsc values).length - 1) / 4 + 1) 0)) / 2) ∧
      quarterThree values =
        .ok ((((sortAsc values).getD (3 * (((sortAsc values).length - 1) / 4)) 0) +
          ((sortAsc values).getD (3 * (((sortAsc values).length - 1) / 4) + 1) 0)) / 2)) :=
  quarter_spec values hne

/-- C2 (witness).  On [1, 2, 3, 4, 5]: n = 5, (n−1)/4 = 1 exactly, so
Q1 is the sorted value at index 1 and Q3 the one at index 3. -/
theorem C2_witness :
    quarterOne [(1 : ℚ), 2, 3, 4, 5] = .ok 2 ∧ quarterThree [(1 : ℚ), 2, 3, 4, 5] = .ok 4 := by
  have h := (C2_quartile_rank_rule [1, 2, 3, 4, 5] (List.cons_ne_nil _ _)).1
    (by with_unfolding_all rfl)
  refine ⟨?_, ?_⟩
  · rw [h.1]
    with_unfolding_all rfl
  · rw [h.2]
    with_unfolding_all rfl

/-- C3.  For every positive raw interval r, with p = ⌊log10 r⌋ and
m = r / 10^p, `next_lowest_decimultiple r [1, 2, 5]` returns c·10^p where
c is the largest of {5, 2, 1} that is ≤ m — so the result is always of
the form {1, 2, 5}·10^k — and in particular for r = 37 it returns 20. -/
theorem C3_nice_interval (r : ℚ) (hr : 0 < r) :
    (∃ c, (c = 1 ∨ c = 2 ∨ c = 5) ∧
      next_lowest_decimultiple r [1, 2, 5] = .ok (c * (10 : ℚ) ^ Int.log 10 r) ∧
      c ≤ r / (10 : ℚ) ^ Int.log 10 r ∧
      ∀ c₂ : ℚ, (c₂ = 1 ∨ c₂ = 2 ∨ c₂ = 5) → c₂ ≤ r / (10 : ℚ) ^ Int.log 10 r → c₂ ≤ c) ∧
    next_lowest_decimultiple 37 [1, 2, 5] = .ok 20 :=
  ⟨nld_spec r hr, by with_unfolding_all rfl⟩

/-- C3 (witness).  The tie-break scenario r = 37: p = 1, m = 3.7, the
largest candidate ≤ 3.7 is 2, so the result is 20. -/
theorem C3_witness : next_lowest_decimultiple 37 [1, 2, 5] = .ok 20 :=
  (C3_nice_interval 37 (by norm_num)).2

/-- C4.  `linear_regression` fails with the length-mismatch ValueError when
the lengths differ; with equal lengths its shared denominator
n·Σx² − (Σx)² is zero exactly when all x are identical, in which case the
division fails (Python ZeroDivisionError — the degenerate-input failure);
otherwise it returns slope = (n·Σxy − Σx·Σy)/(n·Σx² − (Σx)²) and
intercept = (Σy·Σx² − Σx·Σxy)/(n·Σx² − (Σx)²); and
linearRegression([1,2,3],[2,4,6]) = (2, 0) exactly. -/
theorem C4_linear_regression (xs ys : List ℚ) :
    (xs.length ≠ ys.length →
      linear_regression xs ys = .error .valueErrorLengthMismatch) ∧
    (xs.length = ys.length →
      ((xs.length : ℚ) * (List.zipWith (· * ·) xs xs).sum - xs.sum ^ 2 = 0 ↔
        ∀ x ∈ xs, ∀ x₂ ∈ xs, x = x₂) ∧
      ((xs.length : ℚ) * (List.zipWith (· * ·) xs xs).sum - xs.sum ^ 2 = 0 →
        linear_regression xs ys = .error .zeroDivisionError) ∧
      ((xs.length : ℚ) * (List.zipWith (· * ·) xs xs).sum - xs.sum ^ 2 ≠ 0 →
        linear_regression xs ys = .ok
          (((xs.length : ℚ) * (List.zipWith (· * ·) xs ys).sum - xs.sum * ys.sum) /
              ((xs.length : ℚ) * (List.zipWith (· * ·) xs xs).sum - xs.sum ^ 2),
            (ys.sum * (List.zipWith (· * ·) xs xs).sum -
                xs.sum * (List.zipWith (· * ·) xs ys).sum) /
              ((xs.length : ℚ) * (List.zipWith (· * ·) xs xs).sum - xs.sum ^ 2)))) ∧
    linear_regression [1, 2, 3] [2, 4, 6] = .ok (2, 0) := by
  refine ⟨?_, ?_, by with_unfolding_all rfl⟩
  · intro h
    simp only [linear_regression, if_pos h]
  · intro hlen
    have hne : ¬ xs.length ≠ ys.length := fun hc => hc hlen
    have hsp1 : sumProducts xs ys = .ok (List.zipWith (· * ·) xs ys).sum := by
      simp only [sumProducts, if_neg hne]
    have hsp2 : sumProducts xs xs = .ok (List.zipWith (· * ·) xs xs).sum := by
      simp only [sumProducts, if_neg (fun hc : xs.length ≠ xs.length => hc rfl)]
    refine ⟨denom_eq_zero_iff xs, ?_, ?_⟩
    · intro h0
      simp only [linear_regression, if_neg hne, hsp1, hsp2, except_bind_ok]
      rw [show pyDiv ((xs.length : ℚ) * (List.zipWith (· * ·) xs ys).sum - xs.sum * ys.sum)
            ((xs.length : ℚ) * (List.zipWith (· * ·) xs xs).sum - xs.sum ^ 2) =
          .error .zeroDivisionError from by simp only [pyDiv, if_pos h0]]
      rw [except_bind_error]
    · intro h0
      simp only [linear_regression, if_neg hne, hsp1, hsp2, except_bind_ok]
      rw [show pyDiv ((xs.length : ℚ) * (List.zipWith (· * ·) xs ys).sum - xs.sum * ys.sum)
            ((xs.length : ℚ) * (List.zipWith (· * ·) xs xs).sum - xs.sum ^ 2) =
          .ok (((xs.length : ℚ) * (List.zipWith (· * ·) xs ys).sum - xs.sum * ys.sum) /
            ((xs.length : ℚ) * (List.zipWith (· * ·) xs xs).sum - xs.sum ^ 2)) from by
          simp only [pyDiv, if_neg h0]]
      rw [except_bind_ok]
      rw [show pyDiv (ys.sum * (List.zipWith (· * ·) xs xs).sum -
            xs.sum * (List.zipWith (· * ·) xs ys).sum)
            ((xs.length : ℚ) * (List.zipWith (· * ·) xs xs).sum - xs.sum ^ 2) =
          .ok ((ys.sum * (List.zipWith (· * ·) xs xs).sum -
            xs.sum * (List.zipWith (· * ·) xs ys).sum) /
            ((xs.length : ℚ) * (List.zipWith (· * ·) xs xs).sum - xs.sum ^ 2)) from by
          simp only [pyDiv, if_neg h0]]
      rw [except_bind_ok]

/-- C4 (witness).  A length mismatch fails with the mismatch error, and a
dataset with all x identical fails with the division-by-zero error. -/
theorem C4_witness :
    linear_regression [(1 : ℚ)] [] = .error .valueErrorLengthMismatch ∧
    linear_regression [(1 : ℚ), 1] [0, 5] = .error .zeroDivisionError := by
  refine ⟨(C4_linear_regression [1] []).1 (by norm_num), ?_⟩
  exact ((C4_linear_regression [(1 : ℚ), 1] [0, 5]).2.1 rfl).2.1 (by with_unfolding_all decide)

/-- C6.  Outlier detection flags exactly the values strictly outside
[lowerFence, upperFence]; on [1,2,2,3,4,5,50] the pipeline of
`drawBoxplot` gives Q1 = 2, Q3 = 3.5, whisker bounds 1 and 5, and flags
exactly 50. -/
theorem C6_outlier_detection :
    (∀ (data : List ℚ) (lowerFence upperFence v : ℚ),
      v ∈ outliers data lowerFence upperFence ↔
        v ∈ data ∧ (v < lowerFence ∨ upperFence < v)) ∧
    quarterOne [(1 : ℚ), 2, 2, 3, 4, 5, 50] = .ok 2 ∧
    quarterThree [(1 : ℚ), 2, 2, 3, 4, 5, 50] = .ok (7 / 2) ∧
    value_before_threshold (2 - 1.5 * (7 / 2 - 2)) [(1 : ℚ), 2, 2, 3, 4, 5, 50] false =
      .ok 1 ∧
    value_before_threshold (7 / 2 + 1.5 * (7 / 2 - 2)) [(1 : ℚ), 2, 2, 3, 4, 5, 50] true =
      .ok 5 ∧
    outliers [(1 : ℚ), 2, 2, 3, 4, 5, 50] 1 5 = [50] := by
  refine ⟨?_, by with_unfolding_all rfl, by with_unfolding_all rfl, by with_unfolding_all rfl,
    by with_unfolding_all rfl, by with_unfolding_all rfl⟩
  intro data lo hi v
  simp [outliers, List.mem_filter]

/-- C7 (counterexample).  On [1,2,3,4,5,6,7,8] the averaging path applies
((8−1)/4 = 1.75 is not an integer), so quarterOne returns 2.5, not the
claimed value 2 at index 1, and quarterThree returns 4.5, not the claimed
value 6 at index 5. -/
theorem C7_counterexample :
    quarterOne [(1 : ℚ), 2, 3, 4, 5, 6, 7, 8] = .ok (5 / 2) ∧ (5 / 2 : ℚ) ≠ 2 ∧
    quarterThree [(1 : ℚ), 2, 3, 4, 5, 6, 7, 8] = .ok (9 / 2) ∧ (9 / 2 : ℚ) ≠ 6 := by
  refine ⟨by with_unfolding_all rfl, by norm_num, by with_unfolding_all rfl, by norm_num⟩

/-- C7 (amended).  For [1,2,3,4,5,6,7,8] (n = 8, k = 1, averaging path):
Q1 is the average of the sorted values at indices 1 and 2, namely 2.5,
and Q3 the average of the sorted values at indices 3 and 4, namely 4.5. -/
theorem C7_quartiles_of_one_to_eight :
    quarterOne [(1 : ℚ), 2, 3, 4, 5, 6, 7, 8] =
      .ok (((sortAsc [(1 : ℚ), 2, 3, 4, 5, 6, 7, 8]).getD 1 0 +
        (sortAsc [(1 : ℚ), 2, 3, 4, 5, 6, 7, 8]).getD 2 0) / 2) ∧
    quarterOne [(1 : ℚ), 2, 3, 4, 5, 6, 7, 8] = .ok (5 / 2) ∧
    quarterThree [(1 : ℚ), 2, 3, 4, 5, 6, 7, 8] =
      .ok (((sortAsc [(1 : ℚ), 2, 3, 4, 5, 6, 7, 8]).getD 3 0 +
        (sortAsc [(1 : ℚ), 2, 3, 4, 5, 6, 7, 8]).getD 4 0) / 2) ∧
    quarterThree [(1 : ℚ), 2, 3, 4, 5, 6, 7, 8] = .ok (9 / 2) := by
  refine ⟨by with_unfolding_all rfl, by with_unfolding_all rfl, by with_unfolding_all rfl,
    by with_unfolding_all rfl⟩

/-- C10.  For every non-empty input list, quarterOne and quarterThree only
touch in-bounds indices of the sorted copy and return a value normally:
no IndexError is reachable from non-empty input, for any length n ≥ 1. -/
theorem C10_quartile_index_safety (values : List ℚ) (hne : values ≠ []) :
    (∃ q1, quarterOne values = .ok q1) ∧ ∃ q3, quarterThree values = .ok q3 := by
  obtain ⟨hint, hnint⟩ := quarter_spec values hne
  by_cases hc : ((sortAsc values).length - 1) % 4 = 0
  · obtain ⟨h1, h3⟩ := hint hc
    exact ⟨⟨_, h1⟩, ⟨_, h3⟩⟩
  · obtain ⟨h1, h3⟩ := hnint hc
    exact ⟨⟨_, h1⟩, ⟨_, h3⟩⟩

/-- C10 (witness).  Both quartiles succeed on the singleton list [3]. -/
theorem C10_witness :
    (∃ q1, quarterOne [(3 : ℚ)] = .ok q1) ∧ ∃ q3, quarterThree [(3 : ℚ)] = .ok q3 :=
  C10_quartile_index_safety [3] (List.cons_ne_nil _ _)

/-- C9 (counterexample).  Constructing a PointSeries from zero series
fails with the no-data ValueError, which is a different error from the
invalid-dimension ValueError the claim predicts for all cases of fewer
than 2 series. -/
theorem C9_counterexample :
    mkMultivariableDiscreteData [] "" = .error .valueErrorNoData ∧
    PyErr.valueErrorNoData ≠ PyErr.valueErrorDimension := ⟨rfl, by decide⟩

/-- C9 (amended).  Constructing a MultivariableDiscreteData from zero
series fails with the no-data ValueError; from exactly one series with
the invalid-dimension ValueError; from ≥ 2 series of unequal lengths
with the length-mismatch ValueError; and on success numDimensions is the
number of series and numPoints their common length. -/
theorem C9_point_series_construction (ds : List DiscreteData) (t : String) :
    (ds = [] → mkMultivariableDiscreteData ds t = .error .valueErrorNoData) ∧
    (ds.length = 1 → mkMultivariableDiscreteData ds t = .error .valueErrorDimension) ∧
    (2 ≤ ds.length →
      ((∃ d ∈ ds, d.size ≠ ds.headI.size) →
        mkMultivariableDiscreteData ds t = .error .valueErrorLengthMismatch) ∧
      ((∀ d ∈ ds, d.size = ds.headI.size) →
        ∃ m, mkMultivariableDiscreteData ds t = .ok m ∧
          m.numDimensions = ds.length ∧ m.numPoints = ds.headI.size)) := by
  cases ds with
  | nil =>
      refine ⟨fun _ => rfl, fun hc => by simp at hc, fun hc => by simp at hc⟩
  | cons d0 rest =>
      cases rest with
      | nil =>
          refine ⟨fun hc => by simp at hc, fun _ => rfl, fun hc => by simp at hc⟩
      | cons d1 rest₂ =>
          refine ⟨fun hc => by simp at hc, fun hc => by simp at hc, fun _ => ⟨?_, ?_⟩⟩
          · rintro ⟨d, hd, hsize⟩
            have hall : ¬ ((d0 :: d1 :: rest₂).all
                (fun dd => dd.size == d0.size) = true) := by
              rw [List.all_eq_true]
              intro hall
              exact hsize (beq_iff_eq.mp (hall d hd))
            simp only [mkMultivariableDiscreteData]
            rw [if_neg hall]
          · intro hall
            have hall₂ : (d0 :: d1 :: rest₂).all (fun dd => dd.size == d0.size) = true := by
              rw [List.all_eq_true]
              intro d hd
              exact beq_iff_eq.mpr (hall d hd)
            refine ⟨⟨t, (d0 :: d1 :: rest₂).length, d0 :: d1 :: rest₂, d0.size⟩, ?_, rfl, rfl⟩
            simp only [mkMultivariableDiscreteData]
            rw [if_pos hall₂]

/-- C9 (witness).  Two aligned series of length 2 construct successfully
with numDimensions = 2 and numPoints = 2. -/
theorem C9_witness :
    ∃ m, mkMultivariableDiscreteData [⟨[1, 2], "a", ""⟩, ⟨[3, 4], "b", ""⟩] "t" = .ok m ∧
      m.numDimensions = 2 ∧ m.numPoints = 2 :=
  ((C9_point_series_construction [⟨[1, 2], "a", ""⟩, ⟨[3, 4], "b", ""⟩] "t").2.2
      (by norm_num)).2
    (by intro d hd; fin_cases hd <;> rfl)

theorem set_dimensions_numeric_eq (x y w h bw gs maxX minX maxY minY winW winH : ℚ)
    (hx : maxX ≠ minX) (hy : maxY ≠ minY) :
    set_dimensions ⟨maxY, false, maxX, minY, minX, none, x, y, some w, some h, gs, bw,
        (255, 255, 255), (0, 0, 0), (0, 0, 0), "", true, true, "", "", 0.008⟩ winW winH =
      .ok ⟨w, h, x + bw, y + bw, w - 2 * bw, h - 2 * bw,
        (x + bw) + ((w - 2 * bw) - gs * (w - 2 * bw)) / 2,
        (y + bw) + ((h - 2 * bw) - gs * (h - 2 * bw)) / 2,
        gs * (w - 2 * bw), gs * (h - 2 * bw),
        some (gs * (w - 2 * bw) / (maxX - minX)),
        some ((x + bw) + ((w - 2 * bw) - gs * (w - 2 * bw)) / 2 -
          gs * (w - 2 * bw) / (maxX - minX) * minX),
        gs * (h - 2 * bw) / (maxY - minY),
        (y + bw) + ((h - 2 * bw) - gs * (h - 2 * bw)) / 2 + gs * (h - 2 * bw) +
          gs * (h - 2 * bw) / (maxY - minY) * minY⟩ := by
  have hxs : maxX - minX ≠ 0 := sub_ne_zero.mpr hx
  have hys : maxY - minY ≠ 0 := sub_ne_zero.mpr hy
  simp only [set_dimensions, pyDiv, if_neg hxs, if_neg hys, Option.getD_some,
    Bool.false_eq_true, if_false, Except.map]

/-- C5 (counterexample).  For the concrete numeric configuration `c5Cfg`
(y range [1, 2], plot bottom edge at pixel 100) the code computes
originY = 200 = bottomEdge + yScale·minY, while the formula of the claim,
plotEdge − scale·min, gives 0 ≠ 200 for either horizontal plot edge
(bottom 100 or top 0); the value minY = 1 in fact lands on the bottom
edge, pixel 100. -/
theorem C5_counterexample :
    (set_dimensions c5Cfg 800 600).map (fun d => d.originY) = .ok 200 ∧
    (set_dimensions c5Cfg 800 600).map
      (fun d => d.graphY + d.graphHeight - d.yScale * 1) = .ok 0 ∧
    (set_dimensions c5Cfg 800 600).map (fun d => d.graphY - d.yScale * 1) = .ok (-100) ∧
    ((200 : ℚ) ≠ 0 ∧ (200 : ℚ) ≠ -100) ∧
    (set_dimensions c5Cfg 800 600).map (fun d => pixelY d.originY d.yScale 1) = .ok 100 := by
  refine ⟨by with_unfolding_all rfl, by with_unfolding_all rfl, by with_unfolding_all rfl,
    ⟨by norm_num, by norm_num⟩, by with_unfolding_all rfl⟩

/-- C5 (amended).  For every numeric-axis configuration with
non-degenerate ranges (maxX ≠ minX, maxY ≠ minY) and a non-degenerate
graph rectangle, `set_dimensions` produces an affine mapping with
xScale = graphWidth/(maxX − minX), originX = graphX − xScale·minX,
yScale = graphHeight/(maxY − minY) and — unlike the claimed
plotEdge − scale·min — originY = (graphY + graphHeight) + yScale·minY,
so that data value 0 maps to the origin on both axes, minY lands on the
bottom plot edge, arbitrary min/max (including min > 0 or max < 0) are
supported, and the pixel→data inverse returns the original data value
exactly. -/
theorem C5_coordinate_mapping (x y w h bw gs maxX minX maxY minY winW winH : ℚ)
    (hx : maxX ≠ minX) (hy : maxY ≠ minY)
    (hgW : gs * (w - 2 * bw) ≠ 0) (hgH : gs * (h - 2 * bw) ≠ 0) :
    ∃ d, set_dimensions ⟨maxY, false, maxX, minY, minX, none, x, y, some w, some h, gs, bw,
        (255, 255, 255), (0, 0, 0), (0, 0, 0), "", true, true, "", "", 0.008⟩ winW winH =
        .ok d ∧
      d.xScale = some (d.graphWidth / (maxX - minX)) ∧
      d.originX = some (d.graphX - d.graphWidth / (maxX - minX) * minX) ∧
      d.yScale = d.graphHeight / (maxY - minY) ∧
      d.originY = d.graphY + d.graphHeight + d.yScale * minY ∧
      pixelY d.originY d.yScale 0 = d.originY ∧
      pixelY d.originY d.yScale minY = d.graphY + d.graphHeight ∧
      (∀ ox sx, d.originX = some ox → d.xScale = some sx →
        pixelX ox sx 0 = ox ∧ ∀ v, dataFromPixelX ox sx (pixelX ox sx v) = v) ∧
      ∀ v, dataFromPixelY d.originY d.yScale (pixelY d.originY d.yScale v) = v := by
  have hxs : maxX - minX ≠ 0 := sub_ne_zero.mpr hx
  have hys : maxY - minY ≠ 0 := sub_ne_zero.mpr hy
  have hxscale : gs * (w - 2 * bw) / (maxX - minX) ≠ 0 := div_ne_zero hgW hxs
  have hyscale : gs * (h - 2 * bw) / (maxY - minY) ≠ 0 := div_ne_zero hgH hys
  refine ⟨_, set_dimensions_numeric_eq x y w h bw gs maxX minX maxY minY winW winH hx hy,
    rfl, rfl, rfl, ?_, ?_, ?_, ?_, ?_⟩
  · show (y + bw) + ((h - 2 * bw) - gs * (h - 2 * bw)) / 2 + gs * (h - 2 * bw) +
        gs * (h - 2 * bw) / (maxY - minY) * minY =
      ((y + bw) + ((h - 2 * bw) - gs * (h - 2 * bw)) / 2) + gs * (h - 2 * bw) +
        (gs * (h - 2 * bw) / (maxY - minY)) * minY
    ring
  · show pixelY _ _ 0 = _
    simp [pixelY]
  · show pixelY _ _ minY = _
    simp only [pixelY]
    ring
  · rintro ox sx hox hsx
    obtain rfl : ox = _ := (Option.some.inj hox).symm
    obtain rfl : sx = _ := (Option.some.inj hsx).symm
    refine ⟨by simp [pixelX], ?_⟩
    intro v
    simp only [pixelX, dataFromPixelX]
    field_simp
    ring
  · intro v
    show dataFromPixelY _ _ (pixelY _ _ v) = v
    simp only [pixelY, dataFromPixelY]
    field_simp
    ring

/-- C5 (witness).  At the concrete configuration behind `c5Cfg`
(x range [0, 1], y range [1, 2], 100 x 100 plot) the mapping exists, its
y origin sits at bottomEdge + yScale·minY, and minY maps to the bottom
edge. -/
theorem C5_witness :
    ∃ d, set_dimensions ⟨2, false, 1, 1, 0, none, 0, 0, some 100, some 100, 1, 0,
        (255, 255, 255), (0, 0, 0), (0, 0, 0), "", true, true, "", "", 0.008⟩ 800 600 =
        .ok d ∧
      d.originY = d.graphY + d.graphHeight + d.yScale * 1 ∧
      pixelY d.originY d.yScale 1 = d.graphY + d.graphHeight ∧
      ∀ v, dataFromPixelY d.originY d.yScale (pixelY d.originY d.yScale v) = v := by
  obtain ⟨d, hd, _, _, _, h4, _, h6, _, h8⟩ :=
    C5_coordinate_mapping 0 0 100 100 0 1 1 0 2 1 800 600
      (by norm_num) (by norm_num) (by norm_num) (by norm_num)
  exact ⟨d, hd, h4, h6, h8⟩

/-- C8 (counterexample).  Boxplot rendering with a zero-height pixel
rectangle does not fail before emitting draw commands: the frame (border,
background, axes, title, labels, category label) is emitted and only
then the tick computation divides by zero. -/
theorem C8_counterexample :
    (boxplotDraw [⟨[1, 2], "A", ""⟩] [some (0, 0, 0)] bpZeroHeightCfg 800 600).1 ≠ [] ∧
    (boxplotDraw [⟨[1, 2], "A", ""⟩] [some (0, 0, 0)] bpZeroHeightCfg 800 600).2 =
      some .zeroDivisionError := by
  refine ⟨by with_unfolding_all decide, by with_unfolding_all rfl⟩

/-- C8 (amended).  Neither renderer fails fast on a degenerate pixel
rectangle, and the frame precedes the statistics: the zero-height boxplot
emits its 8 frame commands and then fails with a ZeroDivisionError in
the y-tick computation; the zero-width scatterplot emits its 7 frame
commands and then fails with a ZeroDivisionError in the x-tick
computation; and a boxplot over the constant dataset [5, 5] emits the
complete 13-command frame (border, background, axes, title, labels,
ticks) before its whisker statistics raise the no-values-above
ValueError — a partial frame is left behind. -/
theorem C8_render_failure_order :
    (boxplotDraw [⟨[1, 2], "A", ""⟩] [some (0, 0, 0)] bpZeroHeightCfg 800 600).2 =
      some .zeroDivisionError ∧
    (boxplotDraw [⟨[1, 2], "A", ""⟩] [some (0, 0, 0)] bpZeroHeightCfg 800 600).1.length = 8 ∧
    (scatterDraw [scDataset] [(0, 0, 0)] [false] false [none] scZeroWidthCfg 800 600).2 =
      some .zeroDivisionError ∧
    (scatterDraw [scDataset] [(0, 0, 0)] [false] false [none] scZeroWidthCfg 800 600).1.length
      = 7 ∧
    (boxplotDraw [⟨[5, 5], "A", ""⟩] [some (0, 0, 0)] bpConstantDataCfg 800 600).2 =
      some .valueErrorNoValuesAbove ∧
    (boxplotDraw [⟨[5, 5], "A", ""⟩] [some (0, 0, 0)] bpConstantDataCfg 800 600).1.length
      = 13 := by
  refine ⟨by with_unfolding_all rfl, by with_unfolding_all rfl, by with_unfolding_all rfl,
    by with_unfolding_all rfl, by with_unfolding_all rfl, by with_unfolding_all rfl⟩
